import Mathlib

/-!
Shallow embedding of `app/utils/__init__.py` from the kernelci-backend
repository: the identifier validator (`valid_name`, `valid_test_name`), the
full-configuration resolver (`get_defconfig_full` and its two extrapolation
helpers) and the artifact path builder (`create_build_dir`,
`create_boot_dir`).

Python strings are modelled as `List Char`; optional (possibly `None`)
arguments as `Option (List Char)`.  Python's `str.replace` (remove all
occurrences / first occurrence, left to right, non-overlapping) is modelled
by `replaceAllSub` / `replaceFirstSub`, `in` (substring test) by `isSubstr`,
and `os.path.join` (POSIX, two components) by `os_path_join`.
-/

namespace KCI

/-- ASCII alphanumeric test: the character class `[a-zA-Z0-9]` used by the
regular expressions `NO_START_CHARS` and `NO_END_CHARS` in the source. -/
def isAlnumAscii (c : Char) : Bool :=
  (97 ≤ c.toNat && c.toNat ≤ 122) ||
  (65 ≤ c.toNat && c.toNat ≤ 90) ||
  (48 ≤ c.toNat && c.toNat ≤ 57)

/-- Membership in the character class `[a-zA-Z0-9\.\-_+=]` of the regex
`VALID_KCI_NAME` (the regex matches a character OUTSIDE this class). -/
def isValidKciChar (c : Char) : Bool :=
  isAlnumAscii c || c == '.' || c == '-' || c == '_' || c == '+' || c == '='

/-- Membership in the character class `[a-zA-Z0-9\.\-_+]` of the regex
`VALID_TEST_NAME` (same as `isValidKciChar` without `=`). -/
def isValidTestChar (c : Char) : Bool :=
  isAlnumAscii c || c == '.' || c == '-' || c == '_' || c == '+'

/-- `NO_START_CHARS.match(name)`: `re.match` anchors at the start, so the
regex `^[^a-zA-Z0-9]` matches iff the string is non-empty and its first
character is not alphanumeric (on the empty string there is no match). -/
def no_start_chars_match (name : List Char) : Bool :=
  match name with
  | [] => false
  | c :: _ => !isAlnumAscii c

/-- `NO_END_CHARS.search(name)`: the regex `[^a-zA-Z0-9]$` matches iff the
string is non-empty and its last character is not alphanumeric.  (Python's
`$` also matches just before a trailing newline, but a trailing newline is
itself non-alphanumeric, so the condition collapses to the last-character
test.)  On the empty string there is no match. -/
def no_end_chars_search (name : List Char) : Bool :=
  match name.getLast? with
  | none => false
  | some c => !isAlnumAscii c

/-- `VALID_KCI_NAME.search(name)`: matches iff some character of the string
is outside the allowed class. -/
def valid_kci_name_search (name : List Char) : Bool :=
  name.any (fun c => !isValidKciChar c)

/-- `VALID_TEST_NAME.search(name)`. -/
def valid_test_name_search (name : List Char) : Bool :=
  name.any (fun c => !isValidTestChar c)

/-- `valid_name` from the source: valid unless one of the three regexes
matches. -/
def valid_name (name : List Char) : Bool :=
  !(no_start_chars_match name || no_end_chars_search name ||
    valid_kci_name_search name)

/-- `valid_test_name` from the source. -/
def valid_test_name (name : List Char) : Bool :=
  !(no_start_chars_match name || no_end_chars_search name ||
    valid_test_name_search name)

/-- The literal `"frag-"` used by `_extrapolate_defconfig_full_from_kconfig`. -/
def fragPat : List Char := ['f', 'r', 'a', 'g', '-']

/-- The literal `".config"` used by `_extrapolate_defconfig_full_from_kconfig`. -/
def configPat : List Char := ['.', 'c', 'o', 'n', 'f', 'i', 'g']

/-- Python `s.replace(pat, rep)`: replace every occurrence of `pat` in `s`
by `rep`, scanning left to right, non-overlapping.  (Python's special
behaviour for an empty `pat` — interleaving `rep` everywhere — is only
observable when `rep` is non-empty; every call in the source passes
`rep = ""`, for which returning `s` unchanged agrees with Python.) -/
def replaceAllAux (pat rep : List Char) : Nat → List Char → List Char
  | _, [] => []
  | Nat.succ n, _ :: cs => replaceAllAux pat rep n cs
  | 0, c :: cs =>
    if pat.isPrefixOf (c :: cs) && !pat.isEmpty then
      rep ++ replaceAllAux pat rep (pat.length - 1) cs
    else
      c :: replaceAllAux pat rep 0 cs

/-- See the doc comment of `replaceAllAux`: the skip counter starts at 0;
after a match the scan resumes past the matched occurrence (the counter
discards the `pat.length - 1` characters of the occurrence that follow its
head). -/
def replaceAllSub (pat rep s : List Char) : List Char :=
  replaceAllAux pat rep 0 s

/-- Python `s.replace(pat, rep, 1)`: replace only the first (leftmost)
occurrence of `pat` in `s` by `rep`; if `pat` does not occur, return `s`
unchanged.  (Same remark about empty `pat` as for `replaceAllSub`.) -/
def replaceFirstSub (pat rep : List Char) : List Char → List Char
  | [] => []
  | c :: cs =>
    if pat.isPrefixOf (c :: cs) && !pat.isEmpty then
      rep ++ cs.drop (pat.length - 1)
    else
      c :: replaceFirstSub pat rep cs

/-- Python `pat in s`: substring test. -/
def isSubstr (pat : List Char) : List Char → Bool
  | [] => pat.isEmpty
  | c :: cs => pat.isPrefixOf (c :: cs) || isSubstr pat cs

/-- `_extrapolate_defconfig_full_from_kconfig` from the source: when the
fragment string starts with `"frag-"` and ends with `".config"`, the result
is `defconfig + "+" + kconfig_fragments.replace("frag-", "").replace(".config", "")`;
otherwise the plain `defconfig`. -/
def _extrapolate_defconfig_full_from_kconfig
    (kconfig_fragments defconfig : List Char) : List Char :=
  if fragPat.isPrefixOf kconfig_fragments &&
      configPat.isSuffixOf kconfig_fragments then
    defconfig ++ '+' ::
      replaceAllSub configPat [] (replaceAllSub fragPat [] kconfig_fragments)
  else
    defconfig

/-- Modelled from the spec: `models.VALID_ARCHITECTURES`, the "fixed
enumerated set of supported architectures" consumed by the resolver.  The
`models` module of the repository is not under src/; the spec describes the
collection only as a fixed enumeration of CPU architecture names (its
examples use "arm"), so a representative fixed enumeration is used here.
Every theorem about `_extrapolate_defconfig_full_from_dirname` below is
proved through `dirnameLoop`, parametrically in this list, so no result
depends on its particular elements or order. -/
def VALID_ARCHITECTURES : List (List Char) :=
  [['a', 'r', 'm'], ['a', 'r', 'm', '6', '4'],
   ['m', 'i', 'p', 's'], ['x', '8', '6']]

/-- `_replace_arch_value` from the source:
`dirname.replace("%s-" % arch, "", 1)`. -/
def _replace_arch_value (arch dirname : List Char) : List Char :=
  replaceFirstSub (arch ++ ['-']) [] dirname

/-- The `for arch in models.VALID_ARCHITECTURES: if arch in dirname: ...
break` loop of `_extrapolate_defconfig_full_from_dirname`, as a recursion
over the architecture list. -/
def dirnameLoop : List (List Char) → List Char → Option (List Char)
  | [], _ => none
  | arch :: rest, dirname =>
    if isSubstr arch dirname then some (_replace_arch_value arch dirname)
    else dirnameLoop rest dirname

/-- `_extrapolate_defconfig_full_from_dirname` from the source: scan the
fixed architecture enumeration; on the first architecture occurring as a
substring of the directory name, strip the first occurrence of
`"<arch>-"`; `None` when no architecture occurs. -/
def _extrapolate_defconfig_full_from_dirname (dirname : List Char) :
    Option (List Char) :=
  dirnameLoop VALID_ARCHITECTURES dirname

/-- `get_defconfig_full` from the source.  `defconfig_full` and
`kconfig_fragments` may be Python `None` (here `none`).  In the
reconciliation branch the Python comparisons `defconfig_full_d !=
defconfig_full_k` and `defconfig_full_d != defconfig` compare an
`Optional[str]` with a `str` (`None` compares unequal to every string),
which is exactly `Option` inequality against `some _`. -/
def get_defconfig_full (build_dir defconfig : List Char)
    (defconfig_full kconfig_fragments : Option (List Char)) : List Char :=
  match defconfig_full, kconfig_fragments with
  | none, none => defconfig
  | none, some kf =>
    let defconfig_full_k := _extrapolate_defconfig_full_from_kconfig kf defconfig
    let defconfig_full_d := _extrapolate_defconfig_full_from_dirname build_dir
    if defconfig_full_d.isSome &&
        defconfig_full_d != some defconfig_full_k &&
        defconfig_full_d != some defconfig then
      defconfig_full_k
    else
      defconfig_full_k
  | some df, _ => df

/-- `BASE_PATH` from the source. -/
def BASE_PATH : List Char := "/var/www/images/kernel-ci".toList

/-- POSIX `os.path.join(a, b)` for two components: if `b` is absolute it
wins; otherwise `a` and `b` are joined with `"/"` unless `a` is empty or
already ends with `"/"`. -/
def os_path_join (a b : List Char) : List Char :=
  if b.head? = some '/' then b
  else if a = [] ∨ a.getLast? = some '/' then a ++ b
  else a ++ '/' :: b

/-- The validated JSON build descriptor consumed by `create_build_dir` and
`create_boot_dir`: the dict entries under `models.JOB_KEY`,
`models.KERNEL_KEY`, `models.ARCHITECTURE_KEY`, `models.DEFCONFIG_KEY`,
`models.DEFCONFIG_FULL_KEY` and `models.LAB_NAME_KEY`.  The last two may be
missing from the dict (`json_obj.get` returns `None`), hence `Option`. -/
structure BuildJson where
  job : List Char
  kernel : List Char
  architecture : List Char
  defconfig : List Char
  defconfig_full : Option (List Char)
  lab_name : Option (List Char)

/-- The fourth path segment's suffix in `create_build_dir`:
`j_get(models.DEFCONFIG_FULL_KEY, None) or j_get(models.DEFCONFIG_KEY)`.
Python `or` falls through on every falsy value: both a missing key
(`None`) and an empty string select `defconfig`. -/
def buildCfg (j : BuildJson) : List Char :=
  match j.defconfig_full with
  | some v => if v = [] then j.defconfig else v
  | none => j.defconfig

/-- `create_build_dir` from the source:
`join(join(join(BASE_PATH, job), kernel), "{arch}-{cfg}")`. -/
def create_build_dir (j : BuildJson) : List Char :=
  let job_dir := os_path_join BASE_PATH j.job
  let kernel_dir := os_path_join job_dir j.kernel
  let build_rel_dir := j.architecture ++ '-' :: buildCfg j
  os_path_join kernel_dir build_rel_dir

/-- `create_boot_dir` from the source: `join(create_build_dir(json_obj),
json_obj.get(models.LAB_NAME_KEY))`.  When the lab name is missing the
Python code would pass `None` to `os.path.join` and raise `TypeError`;
that case is outside the claims (which require a lab name to be carried)
and is modelled as `none`. -/
def create_boot_dir (j : BuildJson) : Option (List Char) :=
  match j.lab_name with
  | some lab => some (os_path_join (create_build_dir j) lab)
  | none => none

/-- The fragment-derived candidate as claim C3 words it (spec-side
definition, for comparison with the code-side
`_extrapolate_defconfig_full_from_kconfig`): the tag is the fragment string
with exactly the leading `"frag-"` prefix and the trailing `".config"`
suffix removed, interior occurrences of those substrings preserved. -/
def spec_fragment_candidate (kconfig_fragments defconfig : List Char) :
    List Char :=
  if fragPat.isPrefixOf kconfig_fragments &&
      configPat.isSuffixOf kconfig_fragments then
    defconfig ++ '+' ::
      ((kconfig_fragments.drop fragPat.length).take
        (kconfig_fragments.length - fragPat.length - configPat.length))
  else
    defconfig

/-- A concrete validated descriptor, used by witnesses. -/
def sampleBuildJson : BuildJson :=
  ⟨"proj".toList, "v5.10".toList, "arm".toList, "defconfig".toList,
    some ("defconfig+CONFIG_FOO".toList), some ("lab-01".toList)⟩

/-- A concrete descriptor whose `defconfig_full` entry is present but the
empty string, used by witnesses. -/
def sampleBuildJsonEmptyFull : BuildJson :=
  ⟨"proj".toList, "v5.10".toList, "arm".toList, "defconfig".toList,
    some [], some ("lab-01".toList)⟩

end KCI

namespace KCI

example :
    _extrapolate_defconfig_full_from_kconfig
      ("frag-CONFIG_FOO.config".toList) ("defconfig".toList) =
      ("defconfig+CONFIG_FOO".toList) := by decide

example :
    _extrapolate_defconfig_full_from_kconfig
      ("not-a-fragment-name".toList) ("defconfig".toList) =
      ("defconfig".toList) := by decide

example :
    _extrapolate_defconfig_full_from_kconfig
      ("frag-frag-x.config".toList) ("d".toList) = ("d+x".toList) := by decide

example :
    _extrapolate_defconfig_full_from_dirname ("arm-defconfig".toList) =
      some ("defconfig".toList) := by decide

example :
    get_defconfig_full ("arm-defconfig".toList) ("defconfig".toList)
      none (some ("frag-CONFIG_FOO.config".toList)) =
      ("defconfig+CONFIG_FOO".toList) := by decide

example :
    get_defconfig_full ("whatever".toList) ("defconfig".toList) none none =
      ("defconfig".toList) := by decide

example :
    get_defconfig_full ("arm-defconfig+fragA".toList) ("defconfig".toList)
      (some ("defconfig+fragA".toList)) (some ("frag-fragA.config".toList)) =
      ("defconfig+fragA".toList) := by decide

example :
    create_build_dir
      ⟨"proj".toList, "v5.10".toList, "arm".toList, "defconfig".toList,
        some ("defconfig+CONFIG_FOO".toList), none⟩ =
      ("/var/www/images/kernel-ci/proj/v5.10/arm-defconfig+CONFIG_FOO".toList) := by
  decide

example :
    create_boot_dir
      ⟨"proj".toList, "v5.10".toList, "arm".toList, "defconfig".toList,
        none, some ("lab-01".toList)⟩ =
      some ("/var/www/images/kernel-ci/proj/v5.10/arm-defconfig/lab-01".toList) := by
  decide

/-- Helper: in the branch `defconfig_full = None`, `kconfig_fragments ≠
None`, both arms of the reconciliation `if` assign the fragment-derived
candidate. -/
lemma get_defconfig_full_none_some (bd d kf : List Char) :
    get_defconfig_full bd d none (some kf) =
      _extrapolate_defconfig_full_from_kconfig kf d := by
  simp [get_defconfig_full]

/-- Helper: `dirnameLoop` over any architecture enumeration is `find?` of
the substring test followed by stripping the first `"<arch>-"`
occurrence. -/
lemma dirnameLoop_eq_find (archs : List (List Char)) (dirname : List Char) :
    dirnameLoop archs dirname =
      (archs.find? (fun a => isSubstr a dirname)).map
        (fun a => _replace_arch_value a dirname) := by
  induction archs with
  | nil => rfl
  | cons a rest ih =>
    cases h : isSubstr a dirname with
    | true => simp [dirnameLoop, h, List.find?_cons_of_pos]
    | false => simp [dirnameLoop, h, List.find?_cons_of_neg, ih]

/-- C2: when `defconfig_full` is absent and `kconfig_fragments` is present,
`get_defconfig_full` returns the fragment-derived candidate in both
branches of the reconciliation: the replacement branch assigns the same
fragment-derived value, so the result never depends on the directory-derived
candidate. -/
theorem C2_reconciliation_always_fragment_candidate
    (build_dir defconfig kf : List Char) :
    get_defconfig_full build_dir defconfig none (some kf) =
      _extrapolate_defconfig_full_from_kconfig kf defconfig :=
  get_defconfig_full_none_some build_dir defconfig kf

/-- C4: when `defconfig_full` is present, `get_defconfig_full` returns it
unchanged, for every `defconfig`, every `kconfig_fragments` and every
directory name. -/
theorem C4_defconfig_full_is_authoritative
    (build_dir defconfig df : List Char)
    (kconfig_fragments : Option (List Char)) :
    get_defconfig_full build_dir defconfig (some df) kconfig_fragments = df := by
  cases kconfig_fragments <;> rfl

/-- C5: the directory-derived candidate is computed by finding the first
supported architecture (in the enumeration order of
`VALID_ARCHITECTURES`) occurring as a substring of the directory name and
removing the first occurrence of that architecture together with one
trailing `"-"`; if no architecture occurs as a substring, the candidate is
`none`. -/
theorem C5_dirname_candidate_characterisation (dirname : List Char) :
    _extrapolate_defconfig_full_from_dirname dirname =
      (VALID_ARCHITECTURES.find? (fun a => isSubstr a dirname)).map
        (fun a => replaceFirstSub (a ++ ['-']) [] dirname) := by
  rw [_extrapolate_defconfig_full_from_dirname, dirnameLoop_eq_find]
  rfl

/-- C6: when both `defconfig_full` and `kconfig_fragments` are absent, the
result is `defconfig` itself, for every directory name. -/
theorem C6_both_absent_returns_defconfig (build_dir defconfig : List Char) :
    get_defconfig_full build_dir defconfig none none = defconfig := rfl

/-- C8: `get_defconfig_full` is total: for every combination of present and
absent optional arguments it returns a string — `defconfig_full` when
present, otherwise the fragment-derived candidate when fragments are
present (which itself falls back to `defconfig` on malformed fragment
strings), otherwise `defconfig`.  No input is an error. -/
theorem C8_resolver_total_characterisation
    (build_dir defconfig : List Char)
    (defconfig_full kconfig_fragments : Option (List Char)) :
    get_defconfig_full build_dir defconfig defconfig_full kconfig_fragments =
      (match defconfig_full, kconfig_fragments with
       | some df, _ => df
       | none, some kf => _extrapolate_defconfig_full_from_kconfig kf defconfig
       | none, none => defconfig) := by
  cases defconfig_full with
  | some df => cases kconfig_fragments <;> rfl
  | none =>
    cases kconfig_fragments with
    | none => rfl
    | some kf => exact get_defconfig_full_none_some build_dir defconfig kf

/-- C9: `get_defconfig_full` is a pure, deterministic function: two calls
with identical arguments return identical results. -/
theorem C9_resolver_deterministic
    (bd₁ bd₂ d₁ d₂ : List Char) (df₁ df₂ kf₁ kf₂ : Option (List Char))
    (hbd : bd₁ = bd₂) (hd : d₁ = d₂) (hdf : df₁ = df₂) (hkf : kf₁ = kf₂) :
    get_defconfig_full bd₁ d₁ df₁ kf₁ = get_defconfig_full bd₂ d₂ df₂ kf₂ := by
  subst hbd; subst hd; subst hdf; subst hkf; rfl

/-- C9 witness: the determinism theorem applied at a concrete input. -/
theorem C9_resolver_deterministic_witness :
    ("arm-defconfig".toList = "arm-defconfig".toList) ∧
    get_defconfig_full ("arm-defconfig".toList) ("defconfig".toList) none
        (some ("frag-a.config".toList)) =
      get_defconfig_full ("arm-defconfig".toList) ("defconfig".toList) none
        (some ("frag-a.config".toList)) :=
  ⟨rfl,
    C9_resolver_deterministic _ _ _ _ _ _ _ _ rfl rfl rfl rfl⟩

/-- Helper: a list is a Boolean prefix of itself followed by anything. -/
lemma isPrefixOf_append_self (l t : List Char) : l.isPrefixOf (l ++ t) = true := by
  induction l with
  | nil => cases t <;> rfl
  | cons c cs ih => simp [List.isPrefixOf, ih]

/-- Helper: a list is a Boolean suffix of anything followed by itself. -/
lemma isSuffixOf_append_self (l t : List Char) : l.isSuffixOf (t ++ l) = true := by
  simp only [List.isSuffixOf, List.reverse_append]
  exact isPrefixOf_append_self _ _

/-- Helper: a skip counter of `l.length` discards exactly `l`. -/
lemma replaceAllAux_skip (pat rep : List Char) :
    ∀ (l t : List Char),
      replaceAllAux pat rep l.length (l ++ t) = replaceAllAux pat rep 0 t := by
  intro l
  induction l with
  | nil => intro t; rfl
  | cons c cs ih => intro t; simpa [replaceAllAux] using ih t

/-- Helper: replacing at a match at the head of the string consumes the
whole occurrence and continues after it. -/
lemma replaceAllSub_head_match (p : Char) (ps rep rest : List Char) :
    replaceAllSub (p :: ps) rep ((p :: ps) ++ rest) =
      rep ++ replaceAllSub (p :: ps) rep rest := by
  have h1 : (p :: ps).isPrefixOf (p :: (ps ++ rest)) = true :=
    isPrefixOf_append_self (p :: ps) rest
  unfold replaceAllSub
  simp [replaceAllAux, h1, replaceAllAux_skip]

/-- Helper: the scan passes unchanged over characters that differ from the
head of the pattern. -/
lemma replaceAllSub_append_clean (p : Char) (ps rep : List Char) :
    ∀ (s₁ s₂ : List Char), (∀ c ∈ s₁, c ≠ p) →
      replaceAllSub (p :: ps) rep (s₁ ++ s₂) =
        s₁ ++ replaceAllSub (p :: ps) rep s₂ := by
  unfold replaceAllSub
  intro s₁
  induction s₁ with
  | nil => intro s₂ _; rfl
  | cons c cs ih =>
    intro s₂ h
    have hc : (p == c) = false :=
      beq_eq_false_iff_ne.mpr (Ne.symm (h c (by simp)))
    have hpre : (p :: ps).isPrefixOf (c :: (cs ++ s₂)) = false := by
      simp [List.isPrefixOf, hc]
    simpa [replaceAllAux, hpre] using ih s₂ (fun x hx => h x (by simp [hx]))

/-- Helper: when the pattern does not occur, the replacement scan is the
identity. -/
lemma isSubstr_false_replace_id (pat rep : List Char) :
    ∀ s, isSubstr pat s = false → replaceAllSub pat rep s = s := by
  unfold replaceAllSub
  intro s
  induction s with
  | nil => intro _; rfl
  | cons c cs ih =>
    intro h
    simp only [isSubstr, Bool.or_eq_false_iff] at h
    simp [replaceAllAux, h.1, ih h.2]

/-- Helper: occurrences of a pattern starting with `p` cannot begin inside
a block of characters all different from `p`. -/
lemma isSubstr_append_clean (p : Char) (ps : List Char) :
    ∀ (s₁ s₂ : List Char), (∀ c ∈ s₁, c ≠ p) →
      isSubstr (p :: ps) (s₁ ++ s₂) = isSubstr (p :: ps) s₂ := by
  intro s₁
  induction s₁ with
  | nil => intro s₂ _; rfl
  | cons c cs ih =>
    intro s₂ h
    have hc : (p == c) = false :=
      beq_eq_false_iff_ne.mpr (Ne.symm (h c (by simp)))
    simp [isSubstr, List.isPrefixOf, hc, ih s₂ (fun x hx => h x (by simp [hx]))]

/-- C3 counterexample: on `kconfig_fragments = "frag-frag-x.config"`,
`defconfig = "d"`, the code removes ALL occurrences of `"frag-"` and
`".config"` (Python `str.replace`), yielding `"d+x"`, while the claim
(interior occurrences preserved — only the leading prefix and trailing
suffix removed) demands `"d+frag-x"`. -/
theorem C3_counterexample_interior_occurrence :
    _extrapolate_defconfig_full_from_kconfig ("frag-frag-x.config".toList)
        ("d".toList) = ("d+x".toList) ∧
    spec_fragment_candidate ("frag-frag-x.config".toList) ("d".toList) =
      ("d+frag-x".toList) ∧
    ¬(_extrapolate_defconfig_full_from_kconfig ("frag-frag-x.config".toList)
        ("d".toList) =
      spec_fragment_candidate ("frag-frag-x.config".toList) ("d".toList)) := by
  decide

/-- C3 amended: if `kconfig_fragments` starts with `"frag-"` and ends with
`".config"`, the candidate is `defconfig + "+" + tag` where `tag` is the
fragment string with ALL occurrences of `"frag-"` removed and then all
occurrences of `".config"` removed (left to right, non-overlapping) — in
particular, when neither literal occurs in the interior, `tag` is exactly
the interior between the prefix and the suffix.  Otherwise the candidate is
`defconfig` unchanged.  Stated here: for every interior `mid` free of `'f'`
and `'.'` (so free of interior occurrences), the candidate on
`"frag-" ++ mid ++ ".config"` is `defconfig + "+" + mid`; and on every
non-matching fragment string the candidate is `defconfig`. -/
theorem C3_amended_fragment_candidate
    (mid d kf : List Char) (hf : 'f' ∉ mid) (hdot : '.' ∉ mid)
    (hmatch : ¬(fragPat.isPrefixOf kf = true ∧ configPat.isSuffixOf kf = true)) :
    _extrapolate_defconfig_full_from_kconfig (fragPat ++ mid ++ configPat) d =
      d ++ '+' :: mid ∧
    _extrapolate_defconfig_full_from_kconfig kf d = d := by
  constructor
  · have hpre : fragPat.isPrefixOf (fragPat ++ mid ++ configPat) = true := by
      rw [List.append_assoc]
      exact isPrefixOf_append_self _ _
    have hsuf : configPat.isSuffixOf (fragPat ++ mid ++ configPat) = true :=
      isSuffixOf_append_self _ _
    have hff : fragPat = 'f' :: ['r', 'a', 'g', '-'] := rfl
    have hcc : configPat = '.' :: ['c', 'o', 'n', 'f', 'i', 'g'] := rfl
    have step1 :
        replaceAllSub fragPat [] (fragPat ++ mid ++ configPat) =
          mid ++ configPat := by
      rw [List.append_assoc, hff, replaceAllSub_head_match]
      rw [← hff]
      have hsub : isSubstr fragPat (mid ++ configPat) = false := by
        rw [hff, isSubstr_append_clean 'f' ['r', 'a', 'g', '-'] mid configPat
          (fun c hm heq => hf (heq ▸ hm))]
        decide
      rw [isSubstr_false_replace_id fragPat [] _ hsub]
      rfl
    have step2 : replaceAllSub configPat [] (mid ++ configPat) = mid := by
      rw [hcc]
      rw [replaceAllSub_append_clean '.' ['c', 'o', 'n', 'f', 'i', 'g'] []
        mid ('.' :: ['c', 'o', 'n', 'f', 'i', 'g'])
        (fun c hm heq => hdot (heq ▸ hm))]
      have h0 : replaceAllSub ('.' :: ['c', 'o', 'n', 'f', 'i', 'g']) []
          ('.' :: ['c', 'o', 'n', 'f', 'i', 'g']) = [] := by decide
      rw [h0, List.append_nil]
    unfold _extrapolate_defconfig_full_from_kconfig
    rw [if_pos (by simp only [Bool.and_eq_true]; exact ⟨hpre, hsuf⟩),
      step1, step2]
  · unfold _extrapolate_defconfig_full_from_kconfig
    rw [if_neg (by simpa only [Bool.and_eq_true] using hmatch)]

/-- C3 amended witness: the amended theorem applied at `mid = "x"`,
`defconfig = "d"`, non-matching fragment string `"nope"`. -/
theorem C3_amended_fragment_candidate_witness :
    ('f' ∉ ['x']) ∧ ('.' ∉ ['x']) ∧
    (¬(fragPat.isPrefixOf ("nope".toList) = true ∧
        configPat.isSuffixOf ("nope".toList) = true)) ∧
    (_extrapolate_defconfig_full_from_kconfig (fragPat ++ ['x'] ++ configPat)
        ("d".toList) = ("d".toList) ++ '+' :: ['x'] ∧
      _extrapolate_defconfig_full_from_kconfig ("nope".toList) ("d".toList) =
        ("d".toList)) :=
  ⟨by decide, by decide, by decide,
    C3_amended_fragment_candidate ['x'] ("d".toList) ("nope".toList)
      (by decide) (by decide) (by decide)⟩

/-- Helper: a name accepted by the validator cannot start with `'/'`
(slash is outside the allowed character set, and a non-empty valid name
starts with an alphanumeric character). -/
lemma valid_name_head_not_slash (s : List Char) (h : valid_name s = true) :
    s.head? ≠ some '/' := by
  cases s with
  | nil => simp
  | cons c cs =>
    intro heq
    have hc : c = '/' := by simpa using heq
    subst hc
    have hA : isAlnumAscii '/' = false := by decide
    simp [valid_name, no_start_chars_match, hA] at h

/-- Helper: a name accepted by the validator cannot end with `'/'`. -/
lemma valid_name_getLast_not_slash (s : List Char) (h : valid_name s = true) :
    s.getLast? ≠ some '/' := by
  intro heq
  have hA : isAlnumAscii '/' = false := by decide
  simp [valid_name, no_end_chars_search, heq, hA] at h

/-- Helper: `os.path.join` on a non-empty left component not ending in
`'/'` and a right component not starting with `'/'` is plain
slash-separated concatenation. -/
lemma os_path_join_eq (a b : List Char) (ha : a ≠ [])
    (hlast : a.getLast? ≠ some '/') (hb : b.head? ≠ some '/') :
    os_path_join a b = a ++ '/' :: b := by
  unfold os_path_join
  rw [if_neg hb, if_neg (by simp [ha, hlast])]

/-- Helper: the last character of `a ++ "/" ++ s` is the last character of
`s` when `s` is non-empty. -/
lemma getLast_append_slash_cons (a s : List Char) (hs : s ≠ []) :
    (a ++ '/' :: s).getLast? = s.getLast? := by
  rw [List.getLast?_append_cons]
  cases s with
  | nil => exact absurd rfl hs
  | cons c cs => rw [List.getLast?_cons_cons]

/-- Helper: the fourth path segment `"<arch>-<cfg>"` starts with the first
character of a validated architecture, or with `'-'`; never with `'/'`. -/
lemma append_dash_head_not_slash (arch cfg : List Char)
    (h : valid_name arch = true) :
    (arch ++ '-' :: cfg).head? ≠ some '/' := by
  cases arch with
  | nil => simp
  | cons c cs => simpa using valid_name_head_not_slash (c :: cs) h

/-- Helper: the fourth path segment `"<arch>-<cfg>"` ends with the last
character of a validated `cfg`, or with `'-'`; never with `'/'`. -/
lemma append_dash_getLast_not_slash (arch cfg : List Char)
    (h : valid_name cfg = true) :
    (arch ++ '-' :: cfg).getLast? ≠ some '/' := by
  rw [List.getLast?_append_cons]
  cases cfg with
  | nil => simp
  | cons x xs =>
    rw [List.getLast?_cons_cons]
    exact valid_name_getLast_not_slash _ h

/-- C7: for every validated descriptor (identifiers accepted by
`valid_name` and non-empty, as the spec's identifier grammar requires),
the build directory is
`BASE_PATH / job / kernel / architecture-cfg` where `cfg` is the
full-configuration value (`buildCfg`, falling back to `defconfig`); and
when the descriptor carries a validated lab name, the boot directory is
the build directory with `/ lab_name` appended. -/
theorem C7_build_and_boot_dir_layout (j : BuildJson)
    (hjob : valid_name j.job = true) (hker : valid_name j.kernel = true)
    (harch : valid_name j.architecture = true)
    (hcfg : valid_name (buildCfg j) = true)
    (hjobne : j.job ≠ []) (hkerne : j.kernel ≠ []) :
    create_build_dir j =
      BASE_PATH ++ '/' :: (j.job ++ '/' :: (j.kernel ++ '/' ::
        (j.architecture ++ '-' :: buildCfg j))) ∧
    (∀ lab, j.lab_name = some lab → valid_name lab = true →
      create_boot_dir j = some (create_build_dir j ++ '/' :: lab)) := by
  have hbase_ne : BASE_PATH ≠ [] := by decide
  have hbase_last : BASE_PATH.getLast? ≠ some '/' := by decide
  have e1 : os_path_join BASE_PATH j.job = BASE_PATH ++ '/' :: j.job :=
    os_path_join_eq _ _ hbase_ne hbase_last (valid_name_head_not_slash _ hjob)
  have e2 : os_path_join (BASE_PATH ++ '/' :: j.job) j.kernel =
      (BASE_PATH ++ '/' :: j.job) ++ '/' :: j.kernel := by
    refine os_path_join_eq _ _ (by simp) ?_ (valid_name_head_not_slash _ hker)
    rw [getLast_append_slash_cons _ _ hjobne]
    exact valid_name_getLast_not_slash _ hjob
  have e3 : os_path_join ((BASE_PATH ++ '/' :: j.job) ++ '/' :: j.kernel)
      (j.architecture ++ '-' :: buildCfg j) =
      ((BASE_PATH ++ '/' :: j.job) ++ '/' :: j.kernel) ++ '/' ::
        (j.architecture ++ '-' :: buildCfg j) := by
    refine os_path_join_eq _ _ (by simp) ?_
      (append_dash_head_not_slash _ _ harch)
    rw [getLast_append_slash_cons _ _ hkerne]
    exact valid_name_getLast_not_slash _ hker
  have hbuild : create_build_dir j =
      BASE_PATH ++ '/' :: (j.job ++ '/' :: (j.kernel ++ '/' ::
        (j.architecture ++ '-' :: buildCfg j))) := by
    show os_path_join (os_path_join (os_path_join BASE_PATH j.job) j.kernel)
        (j.architecture ++ '-' :: buildCfg j) = _
    rw [e1, e2, e3]
    simp [List.append_assoc]
  refine ⟨hbuild, ?_⟩
  intro lab hlab hvlab
  have hbuild_ne : create_build_dir j ≠ [] := by
    rw [hbuild]; simp
  have hbuild_last : (create_build_dir j).getLast? ≠ some '/' := by
    rw [hbuild]
    rw [show BASE_PATH ++ '/' :: (j.job ++ '/' :: (j.kernel ++ '/' ::
        (j.architecture ++ '-' :: buildCfg j))) =
      ((BASE_PATH ++ '/' :: j.job) ++ '/' :: j.kernel) ++ '/' ::
        (j.architecture ++ '-' :: buildCfg j) by simp [List.append_assoc]]
    rw [getLast_append_slash_cons _ _ (by simp)]
    exact append_dash_getLast_not_slash _ _ hcfg
  have hboot : create_boot_dir j =
      some (os_path_join (create_build_dir j) lab) := by
    unfold create_boot_dir
    rw [hlab]
  rw [hboot, os_path_join_eq _ _ hbuild_ne hbuild_last
    (valid_name_head_not_slash _ hvlab)]

/-- C7 witness: the layout theorem applied at a concrete validated
descriptor, with the boot-directory clause instantiated at its lab
name. -/
theorem C7_build_and_boot_dir_layout_witness :
    (valid_name (sampleBuildJson.job) = true) ∧
    (valid_name (sampleBuildJson.kernel) = true) ∧
    (valid_name (sampleBuildJson.architecture) = true) ∧
    (valid_name (buildCfg sampleBuildJson) = true) ∧
    (sampleBuildJson.job ≠ []) ∧ (sampleBuildJson.kernel ≠ []) ∧
    create_build_dir sampleBuildJson =
      BASE_PATH ++ '/' :: (sampleBuildJson.job ++ '/' ::
        (sampleBuildJson.kernel ++ '/' :: (sampleBuildJson.architecture ++
          '-' :: buildCfg sampleBuildJson))) ∧
    create_boot_dir sampleBuildJson =
      some (create_build_dir sampleBuildJson ++ '/' :: ("lab-01".toList)) :=
  ⟨by decide, by decide, by decide, by decide, by decide, by decide,
    (C7_build_and_boot_dir_layout sampleBuildJson (by decide) (by decide)
      (by decide) (by decide) (by decide) (by decide)).1,
    (C7_build_and_boot_dir_layout sampleBuildJson (by decide) (by decide)
      (by decide) (by decide) (by decide) (by decide)).2
      ("lab-01".toList) rfl (by decide)⟩

/-- C10: when the `defconfig_full` entry is present but the empty string
(a falsy value), `create_build_dir` selects the plain `defconfig` for the
fourth path segment's suffix, exactly as if the entry were absent. -/
theorem C10_falsy_defconfig_full_falls_back (j : BuildJson)
    (h : j.defconfig_full = some []) :
    buildCfg j = j.defconfig ∧
    create_build_dir j =
      create_build_dir
        ⟨j.job, j.kernel, j.architecture, j.defconfig, none, j.lab_name⟩ := by
  constructor
  · simp [buildCfg, h]
  · simp [create_build_dir, buildCfg, h]

/-- C10 witness: the falsy-fallback theorem applied at a concrete
descriptor carrying an empty `defconfig_full`. -/
theorem C10_falsy_defconfig_full_falls_back_witness :
    (sampleBuildJsonEmptyFull.defconfig_full = some []) ∧
    (buildCfg sampleBuildJsonEmptyFull = sampleBuildJsonEmptyFull.defconfig ∧
      create_build_dir sampleBuildJsonEmptyFull =
        create_build_dir
          ⟨sampleBuildJsonEmptyFull.job, sampleBuildJsonEmptyFull.kernel,
            sampleBuildJsonEmptyFull.architecture,
            sampleBuildJsonEmptyFull.defconfig, none,
            sampleBuildJsonEmptyFull.lab_name⟩) :=
  ⟨rfl, C10_falsy_defconfig_full_falls_back sampleBuildJsonEmptyFull rfl⟩

/-- C1: the claim says `valid_name` returns false on the empty string ("In
particular the empty string is invalid"), and the function's own docstring
requires a valid name to start and end with an alphanumeric character and
match `[a-zA-Z0-9.-_+=]+` (one or more characters).  The code disagrees
with both: none of the three regexes can match the empty string, so
`valid_name("")` returns `True`.  This theorem evaluates the embedded code
at the failing input. -/
theorem C1_valid_name_accepts_empty_string :
    valid_name [] = true := by decide

end KCI
